import Mathlib

/-!
Shallow embedding of `src/milli/src/search/criteria/geo.rs`, the geo-distance
ranking criterion of the milli search engine, together with theorems settling
the specification claims about it.

Modelling conventions:
* `RoaringBitmap` is modelled as `Finset ℕ` (named `Bitmap` below).
* `usize` values are naturals; `usize::MAX` on the 64-bit target is `2 ^ 64 - 1`.
* The R-tree and `distance_between_two_points` are external to the file under
  `src/`; following the spec, a nearest-neighbor enumeration is modelled as a
  list of `GeoRecord`s, each carrying the rounded integer distance to the
  reference point, yielded in non-decreasing distance order.
* The parent criterion (a boxed trait object) is modelled, following the spec,
  as the list of `CriterionResult`s its successive `next` calls yield; a
  residual query expression is identified with the candidate set the external
  `resolve_query_tree` collaborator resolves it to, and `index.documents_ids`
  becomes the `allDocuments` field.  Storage errors are outside the claims and
  are not modelled.
-/

namespace MilliGeo

/-- Document identifiers (`u32` values of a roaring bitmap). -/
abbrev DocId := ℕ

/-- `RoaringBitmap`: a finite set of document ids. -/
abbrev Bitmap := Finset ℕ

/-- `usize::MAX` on the 64-bit target. -/
def usizeMAX : ℕ := 2 ^ 64 - 1

/-- Modelled from the spec: a geo point record of the spatial index together
with its rounded integer distance to the reference point.  The functions that
produce this value (`rstar`'s nearest-neighbor enumeration and
`crate::distance_between_two_points(..).round() as usize`) are not under
`src/`; per the spec the enumeration yields records in non-decreasing distance
order and the distance is a rounded great-circle distance in meters. -/
structure GeoRecord where
  data : DocId
  dist : ℕ
deriving DecidableEq

/-- `let km = 1000` (geo.rs line 136). -/
def km : ℕ := 1000

/-- The `thickness` boundary array (geo.rs lines 137 to 151). -/
def thicknessList : List ℕ :=
  [100, 500, 1 * km, 10 * km, 20 * km, 50 * km, 100 * km, 200 * km,
   500 * km, 1000 * km, 3000 * km, 10000 * km, usizeMAX]

/-- The `scan` of geo.rs lines 153 to 157: each boundary value becomes the
half-open ring `last..current`, represented as the pair (lower, upper). -/
def ringsAux : ℕ → List ℕ → List (ℕ × ℕ)
  | _, [] => []
  | last, c :: rest => (last, c) :: ringsAux c rest

/-- The full ring schedule produced by the scan, starting from `usize::MIN`. -/
def rings : List (ℕ × ℕ) := ringsAux 0 thicknessList

/-- `Range::contains` for a half-open ring. -/
def ringContains (r : ℕ × ℕ) (d : ℕ) : Bool :=
  decide (r.1 ≤ d) && decide (d < r.2)

lemma ringContains_eq_true {r : ℕ × ℕ} {d : ℕ} :
    ringContains r d = true ↔ r.1 ≤ d ∧ d < r.2 := by
  simp [ringContains]

/-- `Iterator::find` over the remaining (already partially consumed) ring
iterator (geo.rs line 169): returns the found ring together with the rings
still unconsumed after it; `none` when the scan is exhausted, in which case
the `unwrap` would panic. -/
def findRing (d : ℕ) : List (ℕ × ℕ) → Option ((ℕ × ℕ) × List (ℕ × ℕ))
  | [] => none
  | r :: rest => if ringContains r d then some (r, rest) else findRing d rest

/-- State of the `for` loop of geo.rs lines 160 to 183: the remaining
candidate set, the buckets built so far, the current ring
(`current_thickness`) and the unconsumed rest of the ring iterator. -/
structure BucketerState where
  candidates : Bitmap
  results : List Bitmap
  current : ℕ × ℕ
  remaining : List (ℕ × ℕ)
deriving DecidableEq

/-- `results.last().as_mut().unwrap().insert(point.data)` (geo.rs line 175):
insert the id into the most recently pushed bucket. -/
def insertLast (id : DocId) : List Bitmap → List Bitmap
  | [] => []
  | [b] => [insert id b]
  | b :: rest => b :: insertLast id rest

/-- One iteration of the loop body (geo.rs lines 160 to 179): the
remove-if-member test, the three-way classification of the distance against
the current ring, and the unconditional push of the singleton `{point.data}`
at line 179.  `none` models the `unwrap` at line 169 failing. -/
def geoStep (st : BucketerState) (p : GeoRecord) : Option BucketerState :=
  if p.data ∈ st.candidates then
    if ringContains st.current p.dist then
      if st.results.isEmpty then
        some ⟨st.candidates.erase p.data, st.results ++ [{p.data}] ++ [{p.data}],
              st.current, st.remaining⟩
      else
        some ⟨st.candidates.erase p.data, insertLast p.data st.results ++ [{p.data}],
              st.current, st.remaining⟩
    else
      match findRing p.dist st.remaining with
      | none => none
      | some (r, rest) =>
        some ⟨st.candidates.erase p.data, st.results ++ [{p.data}] ++ [{p.data}], r, rest⟩
  else
    some ⟨st.candidates, st.results ++ [{p.data}], st.current, st.remaining⟩

/-- The whole `for` loop, including the early `break` once `candidates` is
empty (geo.rs lines 180 to 182). -/
def geoLoop : BucketerState → List GeoRecord → Option BucketerState
  | st, [] => some st
  | st, p :: ps =>
    match geoStep st p with
    | none => none
    | some st' => if st'.candidates = ∅ then some st' else geoLoop st' ps

/-- `geo_point` (geo.rs lines 129 to 190).  `thickness.next().unwrap()` at
line 158 yields the statically nonempty schedule's first ring `(0, 100)` and
leaves `rings.tail` in the iterator.  `none` models a panic of the ring
lookup inside the loop. -/
def geo_point (pts : List GeoRecord) (candidates : Bitmap) (ascending : Bool) :
    Option (List Bitmap) :=
  match geoLoop ⟨candidates, [], (0, 100), rings.tail⟩ pts with
  | none => none
  | some st => some (if ascending then st.results else st.results.reverse)

/-- The `CriterionResult` shape of the criterion protocol.  A residual query
expression (`query_tree`) is modelled, following the spec, by the candidate
set the external resolver returns for it. -/
structure CriterionResult where
  query_tree : Option Bitmap
  candidates : Option Bitmap
  filtered_candidates : Option Bitmap
  bucket_candidates : Option Bitmap
deriving DecidableEq

/-- The mutable state of a `Geo` criterion instance (geo.rs lines 10 to 20):
the pending bucket sequence (the boxed `candidates` iterator), the two
bookkeeping bitmaps, the optional spatial index (modelled by the enumeration
it would yield from the reference point), the remaining parent results, and
`index.documents_ids` (`allDocuments`). -/
structure GeoState where
  ascending : Bool
  candidatesIter : List Bitmap
  allowed_candidates : Bitmap
  bucket_candidates : Bitmap
  rtree : Option (List GeoRecord)
  parent : List CriterionResult
  allDocuments : Bitmap
deriving DecidableEq

/-- geo.rs lines 90 to 97: explicit candidates if present, else the resolved
query expression, else the full document domain. -/
def rawCandidates (allDocs : Bitmap) (pr : CriterionResult) : Bitmap :=
  match pr.query_tree, pr.candidates with
  | _, some c => c
  | some qt, none => qt
  | none, none => allDocs

/-- geo.rs lines 90 to 101: the raw candidates intersected with the
filter-restricted set when the parent supplied one. -/
def resolveCandidates (allDocs : Bitmap) (pr : CriterionResult) : Bitmap :=
  match pr.filtered_candidates with
  | some f => rawCandidates allDocs pr ∩ f
  | none => rawCandidates allDocs pr

/-- geo.rs lines 103 to 106: union in the parent's statistic when supplied,
otherwise the resolved candidate set itself. -/
def updateBucketCandidates (bc : Bitmap) (pr : CriterionResult) (cands : Bitmap) : Bitmap :=
  match pr.bucket_candidates with
  | some b => bc ∪ b
  | none => bc ∪ cands

/-- The `CriterionResult` built at geo.rs lines 76 to 81. -/
def mkResult (c : Bitmap) (bc : Bitmap) : CriterionResult :=
  ⟨none, some c, none, some bc⟩

/-- geo.rs lines 112 to 120: the pending bucket sequence rebuilt for a fresh
batch, empty when no spatial index is present. -/
def rtreePending (rt : Option (List GeoRecord)) (allowed : Bitmap) (asc : Bool) :
    Option (List Bitmap) :=
  match rt with
  | some pts => geo_point pts allowed asc
  | none => some []

/-- The parent-pulling loop of `Geo::next` (geo.rs lines 83 to 123), recursing
on the successive parent results.  After rebuilding the pending sequence the
loop's next round either pulls again (empty sequence) or emits the sequence's
first bucket through the branch of lines 72 to 81.  `none` models a panic
inside `geo_point`. -/
def geoPull (excluded : Bitmap) (asc : Bool) (rt : Option (List GeoRecord)) (allDocs : Bitmap) :
    Bitmap → Bitmap → List CriterionResult → Option (Option CriterionResult × GeoState)
  | allowed, bc, [] => some (none, ⟨asc, [], allowed, bc, rt, [], allDocs⟩)
  | allowed, bc, pr :: prest =>
    if resolveCandidates allDocs pr = ∅ then
      geoPull excluded asc rt allDocs allowed
        (updateBucketCandidates bc pr (resolveCandidates allDocs pr)) prest
    else
      match rtreePending rt (resolveCandidates allDocs pr \ excluded) asc with
      | none => none
      | some [] =>
        geoPull excluded asc rt allDocs (resolveCandidates allDocs pr \ excluded)
          (updateBucketCandidates bc pr (resolveCandidates allDocs pr)) prest
      | some (c :: rest) =>
        some (some (mkResult (c \ excluded)
                (updateBucketCandidates bc pr (resolveCandidates allDocs pr))),
              ⟨asc, rest, (resolveCandidates allDocs pr \ excluded) \ (c \ excluded),
               updateBucketCandidates bc pr (resolveCandidates allDocs pr), rt, prest,
               allDocs⟩)

/-- `Geo::next` (geo.rs lines 68 to 126): emit the next pending bucket if one
is left, else pull from the parent.  The returned pair is (emitted result,
updated state); the inner `none` is the parent-exhaustion signal, the outer
`none` models a panic. -/
def geoNext (excluded : Bitmap) (st : GeoState) : Option (Option CriterionResult × GeoState) :=
  match st.candidatesIter with
  | c :: rest =>
    some (some (mkResult (c \ excluded) st.bucket_candidates),
          { st with candidatesIter := rest,
                    allowed_candidates := st.allowed_candidates \ (c \ excluded) })
  | [] =>
    geoPull excluded st.ascending st.rtree st.allDocuments
      st.allowed_candidates st.bucket_candidates st.parent

lemma ringsAux_fst_ge :
    ∀ (l : List ℕ) (a : ℕ), List.Chain (· < ·) a l → ∀ r ∈ ringsAux a l, a ≤ r.1 := by
  intro l
  induction l with
  | nil => intro a _ r hr; simp [ringsAux] at hr
  | cons c rest ih =>
    intro a hch r hr
    rw [List.chain_cons] at hch
    simp only [ringsAux, List.mem_cons] at hr
    rcases hr with rfl | hr
    · exact Nat.le_refl a
    · exact Nat.le_trans (Nat.le_of_lt hch.1) (ih c hch.2 r hr)

lemma ringsAux_countP_eq_one (d : ℕ) :
    ∀ (l : List ℕ) (last : ℕ), List.Chain (· < ·) last l → last ≤ d →
      (∃ b ∈ l, d < b) →
      (ringsAux last l).countP (fun r => ringContains r d) = 1 := by
  intro l
  induction l with
  | nil => intro last _ _ hex; simp at hex
  | cons c rest ih =>
    intro last hch hle hex
    rw [List.chain_cons] at hch
    by_cases hdc : d < c
    · have h1 : ringContains (last, c) d = true := ringContains_eq_true.mpr ⟨hle, hdc⟩
      have h0 : (ringsAux c rest).countP (fun r => ringContains r d) = 0 := by
        rw [List.countP_eq_zero]
        intro r hr
        have hge := ringsAux_fst_ge rest c hch.2 r hr
        rw [ringContains_eq_true]
        omega
      simp only [ringsAux, List.countP_cons, h0, h1, if_true]
    · have h1 : ringContains (last, c) d = false := by
        rw [Bool.eq_false_iff]
        intro hx
        exact hdc (ringContains_eq_true.mp hx).2
      have hex' : ∃ b ∈ rest, d < b := by
        rcases hex with ⟨b, hb, hdb⟩
        rcases List.mem_cons.mp hb with rfl | hb'
        · omega
        · exact ⟨b, hb', hdb⟩
      simp only [ringsAux, List.countP_cons, h1, if_false, Nat.add_zero]
      exact ih c hch.2 (by omega) hex'

/-- C4 (amended): the ring schedule of `geo_point` is the strictly
increasing, gapless sequence of 13 half-open tiers with boundaries 0-100,
100-500, 500-1000, 1000-10000, 10000-20000, 20000-50000, 50000-100000,
100000-200000, 200000-500000, 500000-1000000, 1000000-3000000,
3000000-10000000 and 10000000-`usize::MAX`; every rounded distance strictly
below `usize::MAX` lies in exactly one tier.  (The last tier's upper bound is
the exclusive `usize::MAX`, not infinity, so `usize::MAX` itself lies in no
tier.) -/
theorem geo_C4_ring_schedule (d : ℕ) (hd : d < usizeMAX) :
    rings = [(0, 100), (100, 500), (500, 1000), (1000, 10000), (10000, 20000),
             (20000, 50000), (50000, 100000), (100000, 200000), (200000, 500000),
             (500000, 1000000), (1000000, 3000000), (3000000, 10000000),
             (10000000, usizeMAX)] ∧
    rings.countP (fun r => ringContains r d) = 1 := by
  refine ⟨by decide, ?_⟩
  have h := ringsAux_countP_eq_one d thicknessList 0
    (by norm_num [thicknessList, km, usizeMAX, List.chain_cons]) (Nat.zero_le d)
    ⟨usizeMAX, by simp [thicknessList], hd⟩
  exact h

/-- Witness for C4 at the concrete rounded distance 150000. -/
theorem geo_C4_witness :
    150000 < usizeMAX ∧ rings.countP (fun r => ringContains r 150000) = 1 :=
  ⟨by decide, (geo_C4_ring_schedule 150000 (by decide)).2⟩

/-- C4 as literally stated is false: not every non-negative rounded distance
lies in a tier, because the last tier is the half-open `10000000..usize::MAX`
and so excludes the representable distance `usize::MAX` itself. -/
theorem geo_C4_counterexample :
    ¬ ∀ d : ℕ, rings.countP (fun r => ringContains r d) = 1 := by
  intro h
  have h2 := h usizeMAX
  revert h2
  decide

/-- C7: for identical input (same enumeration with its distances, same
candidate set), descending mode yields exactly the reverse of the bucket
sequence ascending mode yields: same buckets, opposite emission order. -/
theorem geo_C7_descending_reverse (pts : List GeoRecord) (candidates : Bitmap) :
    geo_point pts candidates false = (geo_point pts candidates true).map List.reverse := by
  unfold geo_point
  rcases geoLoop ⟨candidates, [], (0, 100), rings.tail⟩ pts with _ | st
  · rfl
  · simp

/-- The remaining ring schedule is contiguous: each ring starts where the
previous one ended, and the final upper bound is `usize::MAX`. -/
def contiguousFrom : ℕ → List (ℕ × ℕ) → Bool
  | lo, [] => lo == usizeMAX
  | lo, r :: rest => (r.1 == lo && decide (lo < r.2)) && contiguousFrom r.2 rest

lemma findRing_succeeds (d : ℕ) :
    ∀ (l : List (ℕ × ℕ)) (lo : ℕ), contiguousFrom lo l = true → lo ≤ d → d < usizeMAX →
      ∃ r rest, findRing d l = some (r, rest) ∧ r.1 ≤ d ∧ d < r.2 ∧
        contiguousFrom r.2 rest = true := by
  intro l
  induction l with
  | nil =>
    intro lo hc hle hlt
    simp only [contiguousFrom, beq_iff_eq] at hc
    subst hc
    omega
  | cons r rest ih =>
    intro lo hc hle hlt
    simp only [contiguousFrom, Bool.and_eq_true, beq_iff_eq, decide_eq_true_eq] at hc
    obtain ⟨⟨h1, h2⟩, h3⟩ := hc
    by_cases hd : d < r.2
    · have hcontains : ringContains r d = true := ringContains_eq_true.mpr ⟨by omega, hd⟩
      refine ⟨r, rest, ?_, by omega, hd, h3⟩
      unfold findRing
      rw [if_pos hcontains]
    · have hnc : ¬ ringContains r d = true := by
        intro hx
        exact hd (ringContains_eq_true.mp hx).2
      obtain ⟨r', rest', hfind, ha, hb, hcont⟩ := ih r.2 h3 (by omega) hlt
      refine ⟨r', rest', ?_, ha, hb, hcont⟩
      unfold findRing
      rw [if_neg hnc]
      exact hfind

lemma geoStep_some (st : BucketerState) (p : GeoRecord)
    (hcont : contiguousFrom st.current.2 st.remaining = true)
    (hlb : st.current.1 ≤ p.dist) (hub : p.dist < usizeMAX) :
    ∃ st', geoStep st p = some st' ∧
      contiguousFrom st'.current.2 st'.remaining = true ∧ st'.current.1 ≤ p.dist := by
  unfold geoStep
  by_cases hm : p.data ∈ st.candidates
  · rw [if_pos hm]
    by_cases hring : ringContains st.current p.dist = true
    · rw [if_pos hring]
      by_cases hres : st.results.isEmpty = true
      · rw [if_pos hres]
        exact ⟨_, rfl, hcont, hlb⟩
      · rw [if_neg hres]
        exact ⟨_, rfl, hcont, hlb⟩
    · rw [if_neg hring]
      have hge : st.current.2 ≤ p.dist := by
        rcases Nat.lt_or_ge p.dist st.current.2 with h | h
        · exact absurd (ringContains_eq_true.mpr ⟨hlb, h⟩) hring
        · exact h
      obtain ⟨r, rest, hfind, hr1, hr2, hcont'⟩ :=
        findRing_succeeds p.dist st.remaining st.current.2 hcont hge hub
      rw [hfind]
      exact ⟨_, rfl, hcont', hr1⟩
  · rw [if_neg hm]
    exact ⟨_, rfl, hcont, hlb⟩

lemma geoLoop_isSome :
    ∀ (pts : List GeoRecord) (st : BucketerState),
      contiguousFrom st.current.2 st.remaining = true →
      List.Sorted (fun p q : GeoRecord => p.dist ≤ q.dist) pts →
      (∀ p ∈ pts, p.dist < usizeMAX) →
      (∀ p ∈ pts, st.current.1 ≤ p.dist) →
      (geoLoop st pts).isSome = true := by
  intro pts
  induction pts with
  | nil => intro st _ _ _ _; rfl
  | cons p ps ih =>
    intro st hcont hsort hub hlb
    obtain ⟨st', hstep, hcont', hlb'⟩ :=
      geoStep_some st p hcont (hlb p (List.mem_cons_self p ps))
        (hub p (List.mem_cons_self p ps))
    rw [List.sorted_cons] at hsort
    simp only [geoLoop, hstep]
    by_cases he : st'.candidates = ∅
    · rw [if_pos he]; rfl
    · rw [if_neg he]
      exact ih st' hcont' hsort.2
        (fun q hq => hub q (List.mem_cons_of_mem p hq))
        (fun q hq => Nat.le_trans hlb' (hsort.1 q hq))

lemma geo_point_isSome (pts : List GeoRecord) (candidates : Bitmap) (ascending : Bool)
    (hsort : List.Sorted (fun p q : GeoRecord => p.dist ≤ q.dist) pts)
    (hub : ∀ p ∈ pts, p.dist < usizeMAX) :
    (geo_point pts candidates ascending).isSome = true := by
  have hinit : contiguousFrom 100 rings.tail = true := by decide
  have h := geoLoop_isSome pts ⟨candidates, [], (0, 100), rings.tail⟩ hinit hsort hub
    (fun p _ => Nat.zero_le p.dist)
  unfold geo_point
  rcases hl : geoLoop ⟨candidates, [], (0, 100), rings.tail⟩ pts with _ | st
  · rw [hl] at h
    exact absurd h (by simp)
  · simp only [hl, Option.isSome_some]

lemma rtreePending_isSome (rt : Option (List GeoRecord)) (allowed : Bitmap) (asc : Bool)
    (hrt : ∀ pts, rt = some pts →
      List.Sorted (fun p q : GeoRecord => p.dist ≤ q.dist) pts ∧
        ∀ p ∈ pts, p.dist < usizeMAX) :
    (rtreePending rt allowed asc).isSome = true := by
  cases rt with
  | none => rfl
  | some pts => exact geo_point_isSome pts allowed asc (hrt pts rfl).1 (hrt pts rfl).2

lemma geoPull_isSome (excluded : Bitmap) (asc : Bool) (rt : Option (List GeoRecord))
    (allDocs : Bitmap)
    (hrt : ∀ pts, rt = some pts →
      List.Sorted (fun p q : GeoRecord => p.dist ≤ q.dist) pts ∧
        ∀ p ∈ pts, p.dist < usizeMAX) :
    ∀ (prs : List CriterionResult) (allowed bc : Bitmap),
      (geoPull excluded asc rt allDocs allowed bc prs).isSome = true := by
  intro prs
  induction prs with
  | nil => intro allowed bc; rfl
  | cons pr prest ih =>
    intro allowed bc
    unfold geoPull
    by_cases hc : resolveCandidates allDocs pr = ∅
    · rw [if_pos hc]
      exact ih _ _
    · rw [if_neg hc]
      have hps := rtreePending_isSome rt (resolveCandidates allDocs pr \ excluded) asc hrt
      rcases hpend : rtreePending rt (resolveCandidates allDocs pr \ excluded) asc
        with _ | pending
      · rw [hpend] at hps
        exact absurd hps (by simp)
      · rcases pending with _ | ⟨c, rest⟩
        · simp only [hpend]
          exact ih _ _
        · simp only [hpend, Option.isSome_some]

/-- C6: under normal operation, the forward scan of the ring schedule always
finds a ring for the rounded distance of a candidate point, so the `unwrap`
of the ring lookup never fails and `next` never panics.  Normal operation is
modelled from the spec: the nearest-neighbor enumeration yields its records
in non-decreasing distance order, and each rounded great-circle distance is
strictly below `usize::MAX` (on Earth distances never exceed a few tens of
millions of meters). -/
theorem geo_C6_no_panic (excluded : Bitmap) (st : GeoState)
    (hrt : ∀ pts, st.rtree = some pts →
      List.Sorted (fun p q : GeoRecord => p.dist ≤ q.dist) pts ∧
        ∀ p ∈ pts, p.dist < usizeMAX) :
    (geoNext excluded st).isSome = true := by
  unfold geoNext
  rcases hci : st.candidatesIter with _ | ⟨c, rest⟩
  · exact geoPull_isSome excluded st.ascending st.rtree st.allDocuments hrt
      st.parent st.allowed_candidates st.bucket_candidates
  · simp only [Option.isSome_some]

/-- Witness for C6: a concrete three-point enumeration in non-decreasing
distance order is processed by `next` without hitting the panic branch. -/
theorem geo_C6_witness :
    (geoNext ∅ ⟨true, [], ∅, ∅, some [⟨10, 5⟩, ⟨11, 250⟩, ⟨12, 6000⟩],
        [⟨none, some {10, 11, 12}, none, none⟩], ∅⟩).isSome = true :=
  geo_C6_no_panic ∅ _ (by
    intro pts hp
    injection hp with h
    subst h
    refine ⟨?_, by decide⟩
    simp [List.sorted_cons])

/-- C5: whenever the pending bucket sequence has an unconsumed bucket, `next`
takes it, subtracts `params.excluded_candidates` from it, also subtracts the
reduced bucket from `allowed_candidates`, and returns a `CriterionResult`
whose explicit candidate set is that bucket and whose `bucket_candidates`
field is a snapshot of the cumulative `bucket_candidates`, with no residual
query expression and no filtered set. -/
theorem geo_C5_pending_bucket (excluded : Bitmap) (st : GeoState) (c : Bitmap)
    (rest : List Bitmap) (h : st.candidatesIter = c :: rest) :
    geoNext excluded st =
      some (some ⟨none, some (c \ excluded), none, some st.bucket_candidates⟩,
            { st with candidatesIter := rest,
                      allowed_candidates := st.allowed_candidates \ (c \ excluded) }) := by
  unfold geoNext
  rw [h]
  rfl

/-- Witness for C5: pending bucket `{1, 2}` with `{1}` excluded emits `{2}`,
removes it from the allowed set `{2, 3}`, and snapshots `bucket_candidates`. -/
theorem geo_C5_witness :
    geoNext {1} ⟨true, [{1, 2}, {3}], {2, 3}, {4}, none, [], ∅⟩ =
      some (some ⟨none, some {2}, none, some {4}⟩,
            ⟨true, [{3}], {3}, {4}, none, [], ∅⟩) := by
  rw [geo_C5_pending_bucket {1} ⟨true, [{1, 2}, {3}], {2, 3}, {4}, none, [], ∅⟩
    {1, 2} [{3}] rfl]
  decide

/-- C8: with no spatial index, a parent batch with a nonempty resolved
candidate set yields no buckets: the pending sequence is rebuilt empty, so
the loop immediately pulls the parent again with the batch's candidates
discarded, exactly as if `next` had been started on the state whose parent
sequence is already advanced past that batch. -/
theorem geo_C8_no_rtree (excluded : Bitmap) (st : GeoState) (pr : CriterionResult)
    (prest : List CriterionResult) (hpend : st.candidatesIter = [])
    (hrt : st.rtree = none) (hpar : st.parent = pr :: prest)
    (hne : resolveCandidates st.allDocuments pr ≠ ∅) :
    geoNext excluded st =
      geoNext excluded
        ⟨st.ascending, [], resolveCandidates st.allDocuments pr \ excluded,
         updateBucketCandidates st.bucket_candidates pr
           (resolveCandidates st.allDocuments pr),
         none, prest, st.allDocuments⟩ := by
  simp only [geoNext, hpend, hpar, hrt, geoPull, rtreePending]
  rw [if_neg hne]

/-- Witness for C8: with no R-tree, the batch `{1}` is resolved, recorded in
`bucket_candidates`, and then dropped; pulling continues with the next batch. -/
theorem geo_C8_witness :
    geoNext ∅ ⟨true, [], {9}, ∅, none,
        [⟨none, some {1}, none, none⟩, ⟨none, some {2}, none, none⟩], ∅⟩ =
      geoNext ∅ ⟨true, [], {1}, {1}, none, [⟨none, some {2}, none, none⟩], ∅⟩ := by
  rw [geo_C8_no_rtree ∅
    ⟨true, [], {9}, ∅, none,
      [⟨none, some {1}, none, none⟩, ⟨none, some {2}, none, none⟩], ∅⟩
    ⟨none, some {1}, none, none⟩ [⟨none, some {2}, none, none⟩] rfl rfl rfl (by decide)]
  decide

lemma bc_subset_update (bc : Bitmap) (pr : CriterionResult) (cands : Bitmap) :
    bc ⊆ updateBucketCandidates bc pr cands := by
  rcases h : pr.bucket_candidates with _ | b <;>
    simp only [updateBucketCandidates, h] <;>
    exact Finset.subset_union_left

lemma geoPull_bc_mono (excluded : Bitmap) (asc : Bool) (rt : Option (List GeoRecord))
    (allDocs : Bitmap) :
    ∀ (prs : List CriterionResult) (allowed bc : Bitmap) (res : Option CriterionResult)
      (st' : GeoState),
      geoPull excluded asc rt allDocs allowed bc prs = some (res, st') →
      bc ⊆ st'.bucket_candidates := by
  intro prs
  induction prs with
  | nil =>
    intro allowed bc res st' h
    simp only [geoPull, Option.some.injEq, Prod.mk.injEq] at h
    obtain ⟨_, hst⟩ := h
    rw [← hst]
  | cons pr prest ih =>
    intro allowed bc res st' h
    simp only [geoPull] at h
    by_cases hc : resolveCandidates allDocs pr = ∅
    · rw [if_pos hc] at h
      exact (bc_subset_update bc pr (resolveCandidates allDocs pr)).trans (ih _ _ _ _ h)
    · rw [if_neg hc] at h
      rcases hpend : rtreePending rt (resolveCandidates allDocs pr \ excluded) asc
        with _ | pending
      · rw [hpend] at h
        exact Option.noConfusion h
      · rcases pending with _ | ⟨c, rest⟩
        · rw [hpend] at h
          exact (bc_subset_update bc pr (resolveCandidates allDocs pr)).trans
            (ih _ _ _ _ h)
        · rw [hpend] at h
          simp only [Option.some.injEq, Prod.mk.injEq] at h
          obtain ⟨_, hst⟩ := h
          rw [← hst]
          exact bc_subset_update bc pr (resolveCandidates allDocs pr)

/-- C9: across any call of `next` on one criterion instance,
`bucket_candidates` only grows: the new value is a superset of the old one
(each update unions in either the parent's statistic or the resolved
candidate set, and emission leaves the field untouched); it is never
reduced. -/
theorem geo_C9_bucket_candidates_monotone (excluded : Bitmap) (st : GeoState)
    (res : Option CriterionResult) (st' : GeoState)
    (h : geoNext excluded st = some (res, st')) :
    st.bucket_candidates ⊆ st'.bucket_candidates := by
  unfold geoNext at h
  rcases hci : st.candidatesIter with _ | ⟨c, rest⟩
  · rw [hci] at h
    exact geoPull_bc_mono excluded st.ascending st.rtree st.allDocuments st.parent
      st.allowed_candidates st.bucket_candidates res st' h
  · rw [hci] at h
    simp only [Option.some.injEq, Prod.mk.injEq] at h
    obtain ⟨_, hst⟩ := h
    rw [← hst]

/-- Witness for C9: one emitting call keeps `bucket_candidates` at `{4}`,
a superset of the old `{4}`. -/
theorem geo_C9_witness :
    (⟨true, [{1}], ∅, {4}, none, [], ∅⟩ : GeoState).bucket_candidates ⊆
      (⟨true, [], ∅, {4}, none, [], ∅⟩ : GeoState).bucket_candidates :=
  geo_C9_bucket_candidates_monotone ∅ ⟨true, [{1}], ∅, {4}, none, [], ∅⟩
    (some ⟨none, some {1}, none, some {4}⟩) ⟨true, [], ∅, {4}, none, [], ∅⟩ (by decide)

/-- C10: when the next pending bucket is entirely contained in
`params.excluded_candidates`, `next` still returns `Some(CriterionResult)`
whose explicit candidate set is the empty set, instead of skipping to the
next pending bucket or pulling the parent. -/
theorem geo_C10_empty_bucket_emitted (excluded : Bitmap) (st : GeoState) (c : Bitmap)
    (rest : List Bitmap) (h : st.candidatesIter = c :: rest) (hsub : c ⊆ excluded) :
    geoNext excluded st =
      some (some ⟨none, some (∅ : Bitmap), none, some st.bucket_candidates⟩,
            { st with candidatesIter := rest }) := by
  have hce : c \ excluded = ∅ := Finset.sdiff_eq_empty_iff_subset.mpr hsub
  unfold geoNext
  rw [h]
  show some (some (mkResult (c \ excluded) st.bucket_candidates),
        { st with candidatesIter := rest,
                  allowed_candidates := st.allowed_candidates \ (c \ excluded) }) = _
  rw [hce, Finset.sdiff_empty]
  rfl

/-- Witness for C10: pending bucket `{1, 2}` with `{1, 2, 3}` excluded is
emitted as the empty candidate set. -/
theorem geo_C10_witness :
    geoNext {1, 2, 3} ⟨true, [{1, 2}], {5}, {7}, none, [], ∅⟩ =
      some (some ⟨none, some ∅, none, some {7}⟩, ⟨true, [], {5}, {7}, none, [], ∅⟩) := by
  rw [geo_C10_empty_bucket_emitted {1, 2, 3} ⟨true, [{1, 2}], {5}, {7}, none, [], ∅⟩
    {1, 2} [] rfl (by decide)]

/-- C1 fails on the code: for the single parent batch whose resolved
candidate set is `{0}` (one indexed point, id 0 at rounded distance 10 m, no
exclusions), `geo_point` builds the pending sequence `[{0}, {0}]` — the
classification push and the unconditional push of geo.rs line 179 duplicate
the point — so two successive `next` calls emit the id 0 in two distinct
buckets of the same batch, contradicting the partition property. -/
theorem geo_C1_partition_violated :
    geoNext ∅ ⟨true, [], ∅, ∅, some [⟨0, 10⟩], [⟨none, some {0}, none, none⟩], {0}⟩ =
      some (some ⟨none, some {0}, none, some {0}⟩,
            ⟨true, [{0}], ∅, {0}, some [⟨0, 10⟩], [], {0}⟩) ∧
    geoNext ∅ ⟨true, [{0}], ∅, {0}, some [⟨0, 10⟩], [], {0}⟩ =
      some (some ⟨none, some {0}, none, some {0}⟩,
            ⟨true, [], ∅, {0}, some [⟨0, 10⟩], [], {0}⟩) := by
  decide

/-- C2 fails on the code: with candidate set `{5}` and an enumeration that
yields the non-candidate id 7 (at 10 m) before the candidate id 5 (at 20 m),
the unconditional push of geo.rs line 179 opens a bucket for id 7 even though
`candidates.remove(7)` returned false; id 5 is then merged into that very
bucket, so the skipped record contributes to a bucket of the result. -/
theorem geo_C2_noncandidate_in_bucket :
    7 ∉ ({5} : Bitmap) ∧
    geo_point [⟨7, 10⟩, ⟨5, 20⟩] {5} true = some [{5, 7}, {5}] ∧
    ∃ b ∈ [({5, 7} : Bitmap), {5}], 7 ∈ b := by
  decide

/-- C3 fails on the code: for the five candidates at rounded distances 10 m,
150 m, 150000 m, 150050 m and 9800000 m, ascending mode produces nine
buckets (each point is duplicated by the unconditional push of geo.rs line
179), not the four buckets the spec expects; descending mode is the reverse
of the nine. -/
theorem geo_C3_scenario :
    geo_point [⟨0, 10⟩, ⟨1, 150⟩, ⟨2, 150000⟩, ⟨3, 150050⟩, ⟨4, 9800000⟩]
        {0, 1, 2, 3, 4} true =
      some [{0}, {0}, {1}, {1}, {2}, insert 3 {2}, {3}, {4}, {4}] ∧
    geo_point [⟨0, 10⟩, ⟨1, 150⟩, ⟨2, 150000⟩, ⟨3, 150050⟩, ⟨4, 9800000⟩]
        {0, 1, 2, 3, 4} false =
      some [{4}, {4}, {3}, insert 3 {2}, {2}, {1}, {1}, {0}, {0}] ∧
    insert 3 {2} = ({2, 3} : Bitmap) ∧
    ([{0}, {0}, {1}, {1}, {2}, insert 3 {2}, {3}, {4}, {4}] : List Bitmap).length ≠ 4 :=
  ⟨by rfl, by rfl, by decide, by decide⟩

end MilliGeo
